import Mathlib

/-!
Verification of the ingestion / reporting pipeline of this repository
(`app/stage2_processing.py`, `app/stage2_reports_enhanced.py`, `run.py`).

The Python code is shallowly embedded: pandas rows become lists of raw cell
strings or structures of raw field strings, SQLAlchemy tables become lists of
stored records threaded through the functions, floats become rationals, and
`datetime` values become explicit structures (for parsing) or integer epoch
seconds (for the reconciliation time arithmetic).
-/

/-- Python `line.count(c)` for a single character `c`. -/
def countChar (s : String) (c : Char) : Nat :=
  (s.toList.filter (fun x => x = c)).length

/-- Python substring containment `needle in hay`, on exploded strings:
    true iff `needle` is a prefix of some suffix of `hay`. -/
def containsAux (needle : List Char) : List Char → Bool
  | [] => needle.isEmpty
  | c :: cs => needle.isPrefixOf (c :: cs) || containsAux needle cs

/-- Python `needle in hay` on strings (case-sensitive substring test). -/
def strContains (needle hay : String) : Bool :=
  containsAux needle.toList hay.toList

/-- Python `str.strip()`: drop leading and trailing whitespace. -/
def pyStrip (s : String) : String :=
  String.mk (((s.toList.dropWhile Char.isWhitespace).reverse.dropWhile Char.isWhitespace).reverse)

/-- Python `str.upper()` (the pipeline only relies on ASCII letters). -/
def pyUpper (s : String) : String :=
  String.mk (s.toList.map Char.toUpper)

/-- Python `str.lower()` (the pipeline only relies on ASCII letters). -/
def pyLower (s : String) : String :=
  String.mk (s.toList.map Char.toLower)

/-- Function `detect_separator` (identical in `stage2_processing.py` and `run.py`):
    count tabs, commas and semicolons in the first line; prefer tab, then
    semicolon, then comma. -/
def detect_separator (line : String) : Char :=
  let tab_count := countChar line '\t'
  let comma_count := countChar line ','
  let semicolon_count := countChar line ';'
  if tab_count ≥ comma_count ∧ tab_count ≥ semicolon_count then '\t'
  else if semicolon_count ≥ comma_count then ';'
  else ','

/-- The exact-match loop of `find_column_index`: scan headers in order and
    return the index of the first header whose stripped upper-cased text
    equals the literal's upper-cased text. -/
def findExactIdx (exact_match : String) : Nat → List String → Option Nat
  | _, [] => none
  | i, h :: hs =>
    if pyUpper (pyStrip h) = pyUpper exact_match then some i
    else findExactIdx exact_match (i + 1) hs

/-- The partial-match loop of `find_column_index`: scan headers in order and
    return the index of the first header containing any search term
    case-insensitively. -/
def findPartialIdx (search_terms : List String) : Nat → List String → Option Nat
  | _, [] => none
  | i, h :: hs =>
    if search_terms.any (fun t => strContains (pyUpper t) (pyUpper (pyStrip h))) then some i
    else findPartialIdx search_terms (i + 1) hs

/-- Function `find_column_index` from `stage2_processing.py`. An exact-match literal is
    only honoured when it is a truthy (non-empty) string, mirroring the Python
    `if exact_match:` guard; when the exact scan finds nothing, the partial
    scan runs. -/
def find_column_index (headers : List String) (search_terms : List String)
    (exact_match : Option String) : Option Nat :=
  match exact_match with
  | some em =>
    if em = "" then findPartialIdx search_terms 0 headers
    else
      match findExactIdx em 0 headers with
      | some i => some i
      | none => findPartialIdx search_terms 0 headers
  | none => findPartialIdx search_terms 0 headers

/-- Sheet-category derivation from `process_payment_data`; its arguments are
    the already upper-cased `tx_type` and `pg_name` row fields. -/
def sheetCategoryOfUpper (tx_type pg_name : String) : String :=
  if tx_type = "DEPOSIT" then
    if strContains "SETTLEMENT" pg_name then "Settlement Deposit" else "M2p Deposit"
  else
    if strContains "SETTLEMENT" pg_name then "Settlement Withdraw" else "M2p Withdraw"

/-- Sheet category as a function of the raw `Type` and `Payment gateway` cells
    (`process_payment_data` upper-cases both before branching). -/
def sheet_category (raw_type raw_gateway : String) : String :=
  sheetCategoryOfUpper (pyUpper raw_type) (pyUpper raw_gateway)

/-- The decision rule of `check_data_sufficiency_for_charts`
    (`stage2_reports_enhanced.py`), as a function of the four per-type record
    counts returned by the owner-scoped (and optionally date-filtered)
    queries. -/
def check_data_sufficiency (payment_count rebate_count crm_withdraw_count crm_deposit_count : Nat) : Bool :=
  let total_records := payment_count + rebate_count + crm_withdraw_count + crm_deposit_count
  let categories_with_data :=
    (if payment_count > 0 then 1 else 0) + (if rebate_count > 0 then 1 else 0) +
      (if crm_withdraw_count > 0 then 1 else 0) + (if crm_deposit_count > 0 then 1 else 0)
  decide (total_records ≥ 20) && decide (categories_with_data ≥ 3)

/-- Numeric value of a digit run (most significant digit first). -/
def digitsToNat (ds : List Char) : Nat :=
  ds.foldl (fun n c => n * 10 + (c.toNat - 48)) 0

/-- The character class kept by `re.sub(r'[^\d.-]', '', ...)` in `safe_float`:
    digits, dot and minus. -/
def keepNumericChar (c : Char) : Bool :=
  c.isDigit || c = '.' || c = '-'

/-- The cleaning step of `safe_float`: `re.sub(r'[^\d.-]', '', str(value))`. -/
def stripNonNumeric (s : String) : String :=
  String.mk (s.toList.filter keepNumericChar)

/-- Python `float(s)` restricted to strings over digits, `.` and `-` (all that
    survives `stripNonNumeric`): an optional leading minus, then at least one
    digit, at most one dot and no further minus; `none` models the
    `ValueError` raised on anything else. -/
def parseFloat? (s : String) : Option Rat :=
  let cs := s.toList
  let neg := cs.head? = some '-'
  let body := if neg then cs.tail else cs
  if body.all (fun c => c.isDigit || c = '.') && (body.filter (fun c => c = '.')).length ≤ 1
      && body.any Char.isDigit then
    let intPart := body.takeWhile (fun c => c ≠ '.')
    let fracPart := (body.dropWhile (fun c => c ≠ '.')).drop 1
    let v : Rat := (digitsToNat intPart : Rat) + (digitsToNat fracPart : Rat) / ((10 : Rat) ^ fracPart.length)
    some (if neg then -v else v)
  else none

/-- Function `safe_float` from `stage2_processing.py`, on string inputs: strip every
    character except digits, dot and minus, parse as a float, and return the
    caller's default when the cleaned text is empty or unparseable. -/
def safe_float (value : String) (dflt : Rat) : Rat :=
  match parseFloat? (stripNonNumeric value) with
  | some v => v
  | none => dflt

/-- The subunit-aware amount computation shared by `process_crm_withdrawals`
    and `process_crm_deposit` in `stage2_processing.py`: upper-case the raw
    cell, coerce it with `safe_float` (default 0), and divide by 100 when the
    upper-cased text contains the literal "USC". -/
def crm_amount (raw_cell : String) : Rat :=
  let amount_val := pyUpper raw_cell
  let amount := safe_float amount_val 0
  if strContains "USC" amount_val then amount / 100 else amount

theorem toNat_Char_ofNat_of_valid {n : Nat} (h : n.isValidChar) : (Char.ofNat n).toNat = n := by
  rw [Char.ofNat, dif_pos h]
  simp [Char.ofNatAux, Char.toNat, UInt32.toNat]

theorem char_eq_iff_toNat {c d : Char} : c = d ↔ c.toNat = d.toNat := by
  constructor
  · intro h; rw [h]
  · intro h
    apply Char.eq_of_val_eq
    apply UInt32.ext
    exact h

theorem char_isDigit_iff {c : Char} : c.isDigit = true ↔ 48 ≤ c.toNat ∧ c.toNat ≤ 57 := by
  simp [Char.isDigit, UInt32.le_def, BitVec.le_def, UInt32.toNat, Char.toNat, ge_iff_le]

theorem keepNumericChar_toUpper (c : Char) :
    keepNumericChar c.toUpper = keepNumericChar c ∧ (keepNumericChar c = true → c.toUpper = c) := by
  by_cases hl : 97 ≤ c.toNat ∧ c.toNat ≤ 122
  · have hvalid : (c.toNat - 32).isValidChar := by
      left; omega
    have hup : c.toUpper = Char.ofNat (c.toNat - 32) := by
      simp only [Char.toUpper]
      rw [if_pos]
      exact ⟨hl.1, hl.2⟩
    have htn : c.toUpper.toNat = c.toNat - 32 := by
      rw [hup]; exact toNat_Char_ofNat_of_valid hvalid
    have hkc : keepNumericChar c = false := by
      unfold keepNumericChar
      have h1 : c.isDigit = false := by
        rw [Bool.eq_false_iff]
        intro hd
        have := char_isDigit_iff.mp hd
        omega
      have h2 : c ≠ '.' := by
        intro h; rw [char_eq_iff_toNat] at h
        simp at h; omega
      have h3 : c ≠ '-' := by
        intro h; rw [char_eq_iff_toNat] at h
        simp at h; omega
      simp [h1, h2, h3]
    have hku : keepNumericChar c.toUpper = false := by
      unfold keepNumericChar
      have h1 : c.toUpper.isDigit = false := by
        rw [Bool.eq_false_iff]
        intro hd
        have := char_isDigit_iff.mp hd
        omega
      have h2 : c.toUpper ≠ '.' := by
        intro h; rw [char_eq_iff_toNat] at h
        simp at h; omega
      have h3 : c.toUpper ≠ '-' := by
        intro h; rw [char_eq_iff_toNat] at h
        simp at h; omega
      simp [h1, h2, h3]
    refine ⟨by rw [hkc, hku], ?_⟩
    intro hfalse
    rw [hkc] at hfalse
    exact absurd hfalse (by simp)
  · have hup : c.toUpper = c := by
      simp only [Char.toUpper]
      rw [if_neg]
      exact hl
    exact ⟨by rw [hup], fun _ => hup⟩

theorem stripNonNumeric_pyUpper (s : String) : stripNonNumeric (pyUpper s) = stripNonNumeric s := by
  unfold stripNonNumeric pyUpper
  congr 1
  show List.filter keepNumericChar (String.toList (String.mk (s.toList.map Char.toUpper)))
      = List.filter keepNumericChar s.toList
  have : String.toList (String.mk (s.toList.map Char.toUpper)) = s.toList.map Char.toUpper := rfl
  rw [this]
  induction s.toList with
  | nil => rfl
  | cons c cs ih =>
    simp only [List.map_cons, List.filter_cons]
    rcases keepNumericChar_toUpper c with ⟨heq, hfix⟩
    by_cases hk : keepNumericChar c = true
    · rw [hk] at heq
      rw [heq, hk, hfix hk, ih]
    · have hk' : keepNumericChar c = false := by
        rw [Bool.eq_false_iff]; exact hk
      rw [hk'] at heq
      rw [heq, hk']
      simp [ih]

/-- Lemma: `safe_float` is insensitive to the upper-casing applied before the USC
    test: non-ASCII-letter characters are untouched and letters are dropped
    by the cleaning regex either way. -/
theorem safe_float_pyUpper (s : String) (d : Rat) : safe_float (pyUpper s) d = safe_float s d := by
  unfold safe_float
  rw [stripNonNumeric_pyUpper]

/-- A persisted record as seen by the dedup queries: the owning user id and
    the record's identity-key value (`tx_id` / `transaction_id` /
    `request_id` / `login`); the remaining columns never influence the
    skip/dedup decisions or the returned counts. -/
structure StoredRec where
  user_id : Nat
  key : String
deriving DecidableEq, Repr

/-- The dedup query of the `stage2_processing.py` ingesters, e.g.
    `PaymentData.query.filter_by(tx_id=tx_id).first()`: the lookup filters on
    the identity key only, with no owner constraint. -/
def stage2_dedup_hit (store : List StoredRec) (_uid : Nat) (key : String) : Bool :=
  store.any (fun r => decide (r.key = key))

/-- The dedup query of the `run.py` ingesters, e.g.
    `PaymentData.query.filter_by(tx_id=tx, user_id=current_user.id).first()`:
    the lookup is scoped to the current owner. -/
def runpy_dedup_hit (store : List StoredRec) (uid : Nat) (key : String) : Bool :=
  store.any (fun r => decide (r.key = key ∧ r.user_id = uid))

/-- One iteration of the shared row-ingestion loop: `keyOf` reproduces the
    row's key extraction and pre-dedup skip rules (`none` means the row is
    skipped before the dedup query); otherwise the store is queried through
    `hit` and the row is either counted as skipped or staged. Staged rows are
    visible to later dedup queries of the same run (SQLAlchemy autoflush on
    `db.session.add`). -/
def ingestStep {ρ : Type} (hit : List StoredRec → Nat → String → Bool) (uid : Nat)
    (keyOf : ρ → Option String) (st : List StoredRec × Nat × Nat) (row : ρ) :
    List StoredRec × Nat × Nat :=
  match keyOf row with
  | none => (st.1, st.2.1, st.2.2 + 1)
  | some k =>
    if hit st.1 uid k then (st.1, st.2.1, st.2.2 + 1)
    else (StoredRec.mk uid k :: st.1, st.2.1 + 1, st.2.2)

/-- A whole per-file ingestion run over the committed store: returns the new
    store plus `(added_rows, skipped_rows)`. -/
def ingestRows {ρ : Type} (hit : List StoredRec → Nat → String → Bool) (uid : Nat)
    (keyOf : ρ → Option String) (store : List StoredRec) (rows : List ρ) :
    List StoredRec × Nat × Nat :=
  rows.foldl (ingestStep hit uid keyOf) (store, 0, 0)

/-- The fields of a payment CSV row that drive the accept/skip decisions of
    `process_payment_data` (`stage2_processing.py`) and `process_payment`
    (`run.py`); the remaining fifteen columns are only copied into the stored
    record. -/
structure PaymentRow where
  tx_id : String
  status : String
  payment_gateway : String
  type : String
deriving DecidableEq, Repr

/-- Key extraction and skip rules of the payment row loop: strip `tx_id`,
    upper-case status and gateway; skip when the id is empty, the gateway is
    BALANCE, or the status is not DONE. Shared by both payment ingesters. -/
def paymentKeyOf (row : PaymentRow) : Option String :=
  let tx_id := pyStrip row.tx_id
  let status := pyUpper row.status
  let pg_name := pyUpper row.payment_gateway
  if tx_id = "" then none
  else if pg_name = "BALANCE" then none
  else if status ≠ "DONE" then none
  else some tx_id

/-- The dedup-relevant field of an IB-rebate CSV row. -/
structure RebateRow where
  transaction_id : String
deriving DecidableEq, Repr

/-- Key extraction of the `process_ib_rebate` row loop: strip the transaction
    id and skip the row when it is empty. -/
def ibRebateKeyOf (row : RebateRow) : Option String :=
  let tx_id := pyStrip row.transaction_id
  if tx_id = "" then none else some tx_id

/-- The `process_payment_data` row loop of `stage2_processing.py`, projected
    to stored identity keys and the returned counts (globally scoped dedup). -/
def process_payment_rows (uid : Nat) (store : List StoredRec) (rows : List PaymentRow) :
    List StoredRec × Nat × Nat :=
  ingestRows stage2_dedup_hit uid paymentKeyOf store rows

/-- The `process_ib_rebate` row loop of `stage2_processing.py` (globally
    scoped dedup). -/
def process_ib_rebate_rows (uid : Nat) (store : List StoredRec) (rows : List RebateRow) :
    List StoredRec × Nat × Nat :=
  ingestRows stage2_dedup_hit uid ibRebateKeyOf store rows

/-- The `process_payment` row loop of `run.py` (owner-scoped dedup). -/
def runpy_process_payment_rows (uid : Nat) (store : List StoredRec) (rows : List PaymentRow) :
    List StoredRec × Nat × Nat :=
  ingestRows runpy_dedup_hit uid paymentKeyOf store rows

theorem ingestStep_store_append {ρ : Type} (hit : List StoredRec → Nat → String → Bool)
    (uid : Nat) (keyOf : ρ → Option String) (st : List StoredRec × Nat × Nat) (row : ρ) :
    ∃ l, (ingestStep hit uid keyOf st row).1 = l ++ st.1 := by
  cases hkr : keyOf row with
  | none => exact ⟨[], by simp [ingestStep, hkr]⟩
  | some k =>
    by_cases h : hit st.1 uid k = true
    · exact ⟨[], by simp [ingestStep, hkr, h]⟩
    · exact ⟨[StoredRec.mk uid k], by simp [ingestStep, hkr, h]⟩

theorem ingestFold_store_append {ρ : Type} (hit : List StoredRec → Nat → String → Bool)
    (uid : Nat) (keyOf : ρ → Option String) :
    ∀ (rows : List ρ) (st : List StoredRec × Nat × Nat),
      ∃ l, (rows.foldl (ingestStep hit uid keyOf) st).1 = l ++ st.1 := by
  intro rows
  induction rows with
  | nil => intro st; exact ⟨[], rfl⟩
  | cons row rest ih =>
    intro st
    rcases ih (ingestStep hit uid keyOf st row) with ⟨l1, h1⟩
    rcases ingestStep_store_append hit uid keyOf st row with ⟨l0, h0⟩
    refine ⟨l1 ++ l0, ?_⟩
    rw [List.foldl_cons, h1, h0, List.append_assoc]

theorem ingestFold_saturates {ρ : Type} (hit : List StoredRec → Nat → String → Bool)
    (uid : Nat) (keyOf : ρ → Option String)
    (Hmono : ∀ (l s : List StoredRec) (k : String), hit s uid k = true → hit (l ++ s) uid k = true)
    (Hself : ∀ (s : List StoredRec) (k : String), hit (StoredRec.mk uid k :: s) uid k = true) :
    ∀ (rows : List ρ) (st : List StoredRec × Nat × Nat) (row : ρ), row ∈ rows →
      ∀ k, keyOf row = some k → hit (rows.foldl (ingestStep hit uid keyOf) st).1 uid k = true := by
  intro rows
  induction rows with
  | nil => intro st row hmem; exact absurd hmem (List.not_mem_nil row)
  | cons r rest ih =>
    intro st row hmem k hk
    rw [List.foldl_cons]
    rcases List.mem_cons.mp hmem with heq | htail
    · subst heq
      rcases ingestFold_store_append hit uid keyOf rest (ingestStep hit uid keyOf st row) with ⟨l, hl⟩
      rw [hl]
      apply Hmono
      by_cases hh : hit st.1 uid k = true
      · have hred : (ingestStep hit uid keyOf st row).1 = st.1 := by
          simp [ingestStep, hk, hh]
        rw [hred]; exact hh
      · have hred : (ingestStep hit uid keyOf st row).1 = StoredRec.mk uid k :: st.1 := by
          simp [ingestStep, hk, hh]
        rw [hred]; exact Hself st.1 k
    · exact ih (ingestStep hit uid keyOf st r) row htail k hk

theorem ingestFold_all_hit {ρ : Type} (hit : List StoredRec → Nat → String → Bool)
    (uid : Nat) (keyOf : ρ → Option String) :
    ∀ (rows : List ρ) (store : List StoredRec) (a s : Nat),
      (∀ row ∈ rows, ∀ k, keyOf row = some k → hit store uid k = true) →
      rows.foldl (ingestStep hit uid keyOf) (store, a, s) = (store, a, s + rows.length) := by
  intro rows
  induction rows with
  | nil => intro store a s _; simp
  | cons r rest ih =>
    intro store a s hall
    rw [List.foldl_cons]
    have hstep : ingestStep hit uid keyOf (store, a, s) r = (store, a, s + 1) := by
      unfold ingestStep
      cases hkr : keyOf r with
      | none => rfl
      | some k =>
        have := hall r (List.mem_cons_self r rest) k hkr
        simp only [this, if_true]
    rw [hstep, ih store a (s + 1) (fun row hrow => hall row (List.mem_cons_of_mem r hrow))]
    simp [List.length_cons]
    omega

theorem ingest_idempotent {ρ : Type} (hit : List StoredRec → Nat → String → Bool)
    (uid : Nat) (keyOf : ρ → Option String)
    (Hmono : ∀ (l s : List StoredRec) (k : String), hit s uid k = true → hit (l ++ s) uid k = true)
    (Hself : ∀ (s : List StoredRec) (k : String), hit (StoredRec.mk uid k :: s) uid k = true)
    (store : List StoredRec) (rows : List ρ) :
    ingestRows hit uid keyOf (ingestRows hit uid keyOf store rows).1 rows
      = ((ingestRows hit uid keyOf store rows).1, 0, rows.length) := by
  unfold ingestRows
  have hall : ∀ row ∈ rows, ∀ k, keyOf row = some k →
      hit (rows.foldl (ingestStep hit uid keyOf) (store, 0, 0)).1 uid k = true := by
    intro row hrow k hk
    exact ingestFold_saturates hit uid keyOf Hmono Hself rows (store, 0, 0) row hrow k hk
  have := ingestFold_all_hit hit uid keyOf rows
    (rows.foldl (ingestStep hit uid keyOf) (store, 0, 0)).1 0 0 hall
  simpa using this

theorem stage2_dedup_hit_mono (uid : Nat) :
    ∀ (l s : List StoredRec) (k : String), stage2_dedup_hit s uid k = true →
      stage2_dedup_hit (l ++ s) uid k = true := by
  intro l s k h
  unfold stage2_dedup_hit at h ⊢
  rw [List.any_append, h, Bool.or_true]

theorem stage2_dedup_hit_self (uid : Nat) :
    ∀ (s : List StoredRec) (k : String), stage2_dedup_hit (StoredRec.mk uid k :: s) uid k = true := by
  intro s k
  unfold stage2_dedup_hit
  simp

theorem runpy_dedup_hit_mono (uid : Nat) :
    ∀ (l s : List StoredRec) (k : String), runpy_dedup_hit s uid k = true →
      runpy_dedup_hit (l ++ s) uid k = true := by
  intro l s k h
  unfold runpy_dedup_hit at h ⊢
  rw [List.any_append, h, Bool.or_true]

theorem runpy_dedup_hit_self (uid : Nat) :
    ∀ (s : List StoredRec) (k : String), runpy_dedup_hit (StoredRec.mk uid k :: s) uid k = true := by
  intro s k
  unfold runpy_dedup_hit
  simp

deriving instance DecidableEq for Except

/-- Cell access `str(row[i] or '')` on a pandas row modelled as a list of
    cell strings (missing cells behave as empty). -/
def cellAt (row : List String) (i : Nat) : String := row.getD i ""

/-- Column resolution `req_time_idx` of `process_crm_withdrawals`. -/
def crmw_req_time_idx (headers : List String) : Option Nat :=
  find_column_index headers ["Review Time", "REVIEW_TIME"] none

/-- Column resolution `trading_account_idx` of `process_crm_withdrawals`. -/
def crmw_trading_account_idx (headers : List String) : Option Nat :=
  find_column_index headers ["Trading Account", "TRADING_ACCOUNT"] none

/-- Column resolution `amount_idx` of `process_crm_withdrawals`. -/
def crmw_amount_idx (headers : List String) : Option Nat :=
  find_column_index headers ["Withdrawal Amount", "WITHDRAWAL_AMOUNT"] none

/-- Column resolution `request_id_idx` of `process_crm_withdrawals`. -/
def crmw_request_id_idx (headers : List String) : Option Nat :=
  find_column_index headers ["Request ID", "REQUEST_ID"] none

/-- Key extraction and skip rules of the `process_crm_withdrawals` row loop:
    skip rows shorter than the largest resolved index, then strip the request
    id and skip when empty. -/
def crmWithdrawalKeyOf (rt ta am ri : Nat) (row : List String) : Option String :=
  let max_idx := max (max rt ta) (max am ri)
  if row.length ≤ max_idx then none
  else
    let request_id := pyStrip (cellAt row ri)
    if request_id = "" then none else some request_id

/-- Function `process_crm_withdrawals` from `stage2_processing.py`: resolve the four
    mandatory columns up front; when any is unresolved, fail with the list of
    missing column names before touching any row (`db.session.rollback`
    leaves the store unchanged); otherwise run the dedup-checked row loop. -/
def process_crm_withdrawals_model (uid : Nat) (store : List StoredRec)
    (headers : List String) (rows : List (List String)) :
    Except (List String) (List StoredRec × Nat × Nat) :=
  match crmw_req_time_idx headers, crmw_trading_account_idx headers,
      crmw_amount_idx headers, crmw_request_id_idx headers with
  | some rt, some ta, some am, some ri =>
    .ok (ingestRows stage2_dedup_hit uid (crmWithdrawalKeyOf rt ta am ri) store rows)
  | rt?, ta?, am?, ri? =>
    .error ((if rt? = none then ["Review Time"] else [])
      ++ (if ta? = none then ["Trading Account"] else [])
      ++ (if am? = none then ["Withdrawal Amount"] else [])
      ++ (if ri? = none then ["Request ID"] else []))

/-- Column resolution `req_idx` of `process_crm_deposit`. -/
def crmd_req_idx (headers : List String) : Option Nat :=
  find_column_index headers ["Request Time", "REQUEST_TIME"] none

/-- Column resolution `acc_idx` of `process_crm_deposit`. -/
def crmd_acc_idx (headers : List String) : Option Nat :=
  find_column_index headers ["Trading Account", "TRADING_ACCOUNT"] none

/-- Column resolution `amt_idx` of `process_crm_deposit`. -/
def crmd_amt_idx (headers : List String) : Option Nat :=
  find_column_index headers ["Trading Amount", "TRADING_AMOUNT"] none

/-- Column resolution `id_idx` of `process_crm_deposit`. -/
def crmd_id_idx (headers : List String) : Option Nat :=
  find_column_index headers ["Request ID", "REQUEST_ID"] none

/-- Key extraction and skip rules of the `process_crm_deposit` row loop. -/
def crmDepositKeyOf (req acc amt rid : Nat) (row : List String) : Option String :=
  let max_idx := max (max req acc) (max amt rid)
  if row.length ≤ max_idx then none
  else
    let request_id := pyStrip (cellAt row rid)
    if request_id = "" then none else some request_id

/-- Function `process_crm_deposit` from `stage2_processing.py`: same up-front check
    over its four mandatory columns (Payment Method / Client ID / Name are
    optional and do not participate). -/
def process_crm_deposit_model (uid : Nat) (store : List StoredRec)
    (headers : List String) (rows : List (List String)) :
    Except (List String) (List StoredRec × Nat × Nat) :=
  match crmd_req_idx headers, crmd_acc_idx headers,
      crmd_amt_idx headers, crmd_id_idx headers with
  | some req, some acc, some amt, some rid =>
    .ok (ingestRows stage2_dedup_hit uid (crmDepositKeyOf req acc amt rid) store rows)
  | req?, acc?, amt?, rid? =>
    .error ((if req? = none then ["Request Time"] else [])
      ++ (if acc? = none then ["Trading Account"] else [])
      ++ (if amt? = none then ["Trading Amount"] else [])
      ++ (if rid? = none then ["Request ID"] else []))

/-- Column resolution `login_idx` of `process_account_list`. -/
def acc_login_idx (headers : List String) : Option Nat :=
  find_column_index headers ["Login"] (some "Login")

/-- Column resolution `name_idx` of `process_account_list`. -/
def acc_name_idx (headers : List String) : Option Nat :=
  find_column_index headers ["Name"] (some "Name")

/-- Column resolution `group_idx` of `process_account_list`. -/
def acc_group_idx (headers : List String) : Option Nat :=
  find_column_index headers ["Group"] (some "Group")

/-- Key extraction of the `process_account_list` row loop: bound check, then
    the login cell (`safe_str`, not stripped); empty logins are skipped. -/
def accountKeyOf (li ni gi : Nat) (row : List String) : Option String :=
  let max_idx := max (max li ni) gi
  if row.length ≤ max_idx then none
  else
    let login := cellAt row li
    if login = "" then none else some login

/-- The insert loop of `process_account_list`: every row with a non-empty
    login is added, with no dedup query (the owner's records were deleted
    just before). -/
def account_insert_fold (uid li ni gi : Nat) (store : List StoredRec)
    (rows : List (List String)) : List StoredRec × Nat × Nat :=
  rows.foldl (fun st row =>
    match accountKeyOf li ni gi row with
    | none => (st.1, st.2.1, st.2.2 + 1)
    | some login => (StoredRec.mk uid login :: st.1, st.2.1 + 1, st.2.2)) (store, 0, 0)

/-- Function `process_account_list` from `stage2_processing.py`: drop a leading
    METATRADER title row, resolve Login/Name/Group (failing with every
    missing name before the delete or any row), then delete the owner's
    existing account records and insert every row with a non-empty login. -/
def process_account_list_model (uid : Nat) (store : List StoredRec)
    (headers : List String) (rows : List (List String)) :
    Except (List String) (List StoredRec × Nat × Nat) :=
  let rows' := match rows.head? with
    | some r => if strContains "METATRADER" (pyUpper (cellAt r 0)) then rows.tail else rows
    | none => rows
  match acc_login_idx headers, acc_name_idx headers, acc_group_idx headers with
  | some li, some ni, some gi =>
    .ok (account_insert_fold uid li ni gi
      (store.filter (fun r => decide (r.user_id ≠ uid))) rows')
  | li?, ni?, gi? =>
    .error ((if li? = none then ["Login"] else [])
      ++ (if ni? = none then ["Name"] else [])
      ++ (if gi? = none then ["Group"] else []))

/-- Column resolution `tx_id_idx` of `process_ib_rebate`. -/
def ibr_tx_id_idx (headers : List String) : Option Nat :=
  find_column_index headers ["Transaction ID", "TRANSACTION_ID"] (some "Transaction ID")

/-- Column resolution `rebate_time_idx` of `process_ib_rebate` (the `Rebate`
    value column is also resolved in the source but never checked, so it is
    not part of the failure logic). -/
def ibr_rebate_time_idx (headers : List String) : Option Nat :=
  find_column_index headers ["Rebate Time", "REBATE_TIME"] (some "Rebate Time")

/-- Key extraction of the `process_ib_rebate` row loop on list-shaped rows:
    bound check against the transaction-id index, strip, skip when empty. -/
def ibRebateKeyOfIdx (ti : Nat) (row : List String) : Option String :=
  if row.length ≤ ti then none
  else
    let tx_id := pyStrip (cellAt row ti)
    if tx_id = "" then none else some tx_id

/-- Function `process_ib_rebate` from `stage2_processing.py`: the two mandatory
    columns are checked by two separate `raise` statements, so the error
    names only the first missing column, not every missing one. -/
def process_ib_rebate_model (uid : Nat) (store : List StoredRec)
    (headers : List String) (rows : List (List String)) :
    Except String (List StoredRec × Nat × Nat) :=
  match ibr_tx_id_idx headers with
  | none => .error "Transaction ID column not found"
  | some ti =>
    match ibr_rebate_time_idx headers with
    | none => .error "Rebate Time column not found"
    | some _ => .ok (ingestRows stage2_dedup_hit uid (ibRebateKeyOfIdx ti) store rows)

/-- C4 (amended): separator detection returns tab when the tab count is ≥
    both the comma and the semicolon counts, otherwise semicolon when the
    semicolon count is ≥ the comma count, otherwise comma; in particular a
    line containing zero tabs, zero commas and zero semicolons falls in the
    first (tie-favours-tab) case and yields tab, not comma. -/
theorem detect_separator_rule (line : String) :
    (countChar line '\t' ≥ countChar line ',' → countChar line '\t' ≥ countChar line ';' →
      detect_separator line = '\t')
  ∧ (¬(countChar line '\t' ≥ countChar line ',' ∧ countChar line '\t' ≥ countChar line ';') →
      countChar line ';' ≥ countChar line ',' → detect_separator line = ';')
  ∧ (¬(countChar line '\t' ≥ countChar line ',' ∧ countChar line '\t' ≥ countChar line ';') →
      ¬(countChar line ';' ≥ countChar line ',') → detect_separator line = ',')
  ∧ (countChar line '\t' = 0 → countChar line ',' = 0 → countChar line ';' = 0 →
      detect_separator line = '\t') := by
  refine ⟨?_, ?_, ?_, ?_⟩
  · intro h1 h2
    simp only [detect_separator]
    rw [if_pos ⟨h1, h2⟩]
  · intro hn h2
    simp only [detect_separator]
    rw [if_neg hn, if_pos h2]
  · intro hn hs
    simp only [detect_separator]
    rw [if_neg hn, if_neg hs]
  · intro h1 h2 h3
    simp only [detect_separator]
    rw [if_pos]
    rw [h1, h2, h3]
    exact ⟨Nat.le_refl 0, Nat.le_refl 0⟩

/-- C4 witness: the spec's own sample line (1 tab, 1 comma, 2 semicolons)
    resolves to semicolon through the middle case. -/
theorem detect_separator_rule_witness :
    ¬(countChar "a\tb,c;d;e" '\t' ≥ countChar "a\tb,c;d;e" ','
        ∧ countChar "a\tb,c;d;e" '\t' ≥ countChar "a\tb,c;d;e" ';')
    ∧ detect_separator "a\tb,c;d;e" = ';' :=
  ⟨by decide, (detect_separator_rule "a\tb,c;d;e").2.1 (by decide) (by decide)⟩

/-- C4 counterexample: a first line with zero tabs, zero commas and zero
    semicolons is resolved to tab by the code (the tie `0 ≥ 0 ∧ 0 ≥ 0`
    prefers tab), refuting "defaults to comma". -/
theorem detect_separator_zero_counts_is_tab :
    countChar "abc" '\t' = 0 ∧ countChar "abc" ',' = 0 ∧ countChar "abc" ';' = 0
      ∧ detect_separator "abc" = '\t' ∧ detect_separator "abc" ≠ ',' := by
  decide

/-- C5: for an accepted payment row, the sheet category is
    "Settlement Deposit" when the type upper-cases to DEPOSIT and the
    upper-cased gateway contains "SETTLEMENT", "M2p Deposit" for DEPOSIT
    without the marker, and symmetrically "Settlement Withdraw" /
    "M2p Withdraw" when the type upper-cases to WITHDRAW. -/
theorem sheet_category_rule (ty pg : String) :
    (pyUpper ty = "DEPOSIT" → strContains "SETTLEMENT" (pyUpper pg) = true →
        sheet_category ty pg = "Settlement Deposit")
  ∧ (pyUpper ty = "DEPOSIT" → strContains "SETTLEMENT" (pyUpper pg) = false →
        sheet_category ty pg = "M2p Deposit")
  ∧ (pyUpper ty = "WITHDRAW" → strContains "SETTLEMENT" (pyUpper pg) = true →
        sheet_category ty pg = "Settlement Withdraw")
  ∧ (pyUpper ty = "WITHDRAW" → strContains "SETTLEMENT" (pyUpper pg) = false →
        sheet_category ty pg = "M2p Withdraw") := by
  refine ⟨?_, ?_, ?_, ?_⟩ <;> intro h1 h2 <;>
    simp [sheet_category, sheetCategoryOfUpper, h1, h2]

/-- C5 witness: concrete deposit and withdraw rows through each branch. -/
theorem sheet_category_rule_witness :
    sheet_category "Deposit" "Alfa SETTLEMENT Gw" = "Settlement Deposit"
  ∧ sheet_category "withdraw" "m2p gateway" = "M2p Withdraw" :=
  ⟨(sheet_category_rule "Deposit" "Alfa SETTLEMENT Gw").1 (by decide) (by decide),
   (sheet_category_rule "withdraw" "m2p gateway").2.2.2 (by decide) (by decide)⟩

/-- C7: the report sufficiency check succeeds exactly when the total record
    count over the four types is ≥ 20 and at least 3 of the 4 types are
    non-empty; 20 records over exactly 3 types is sufficient, 19 records are
    never sufficient. -/
theorem check_data_sufficiency_rule (p r w d : Nat) :
    (check_data_sufficiency p r w d = true ↔
      20 ≤ p + r + w + d ∧ 3 ≤ [p, r, w, d].countP (fun n => decide (0 < n)))
  ∧ (p + r + w + d = 20 → [p, r, w, d].countP (fun n => decide (0 < n)) = 3 →
      check_data_sufficiency p r w d = true)
  ∧ (p + r + w + d = 19 → check_data_sufficiency p r w d = false) := by
  have hcount : [p, r, w, d].countP (fun n => decide (0 < n))
      = (if p > 0 then 1 else 0) + (if r > 0 then 1 else 0)
        + (if w > 0 then 1 else 0) + (if d > 0 then 1 else 0) := by
    by_cases hp : 0 < p <;> by_cases hr : 0 < r <;> by_cases hw : 0 < w <;>
      by_cases hd : 0 < d <;>
      simp [List.countP_cons, List.countP_nil, hp, hr, hw, hd]
  have hmain : check_data_sufficiency p r w d = true ↔
      20 ≤ p + r + w + d ∧ 3 ≤ [p, r, w, d].countP (fun n => decide (0 < n)) := by
    rw [hcount]
    simp [check_data_sufficiency]
  refine ⟨hmain, ?_, ?_⟩
  · intro hsum hcats
    exact hmain.mpr ⟨by omega, by rw [hcats]⟩
  · intro hsum
    rw [Bool.eq_false_iff]
    intro htrue
    have := (hmain.mp htrue).1
    omega

/-- C7 witness: 20 records over exactly 3 types is sufficient; 19 records
    spread over all 4 types is not. -/
theorem check_data_sufficiency_rule_witness :
    check_data_sufficiency 10 5 5 0 = true ∧ check_data_sufficiency 16 1 1 1 = false :=
  ⟨(check_data_sufficiency_rule 10 5 5 0).2.1 (by decide) (by decide),
   (check_data_sufficiency_rule 16 1 1 1).2.2 (by decide)⟩

/-- C2 (amended): for the dedup-checked ingesters (payment and IB rebate as
    cited), re-ingesting the same rows for the same owner against the store
    produced by the first run adds nothing: the second run returns
    `added_rows = 0` and `skipped_rows = total_rows`, leaving the store
    unchanged. -/
theorem reingest_same_file_adds_nothing (uid : Nat) (store : List StoredRec)
    (prows : List PaymentRow) (rrows : List RebateRow) :
    process_payment_rows uid (process_payment_rows uid store prows).1 prows
        = ((process_payment_rows uid store prows).1, 0, prows.length)
  ∧ process_ib_rebate_rows uid (process_ib_rebate_rows uid store rrows).1 rrows
        = ((process_ib_rebate_rows uid store rrows).1, 0, rrows.length) :=
  ⟨ingest_idempotent stage2_dedup_hit uid paymentKeyOf
      (stage2_dedup_hit_mono uid) (stage2_dedup_hit_self uid) store prows,
   ingest_idempotent stage2_dedup_hit uid ibRebateKeyOf
      (stage2_dedup_hit_mono uid) (stage2_dedup_hit_self uid) store rrows⟩

/-- C2 counterexample: the account-list ingester is a snapshot replace with
    no dedup query, so re-ingesting the same one-row file returns
    `added_rows = 1` again on the second call instead of `added_rows = 0`
    with `skipped_rows = total_rows = 1`. -/
theorem account_reingest_not_idempotent :
    process_account_list_model 1 [] ["Login", "Name", "Group"] [["7", "Bob", "G"]]
        = .ok ([StoredRec.mk 1 "7"], 1, 0)
  ∧ process_account_list_model 1 [StoredRec.mk 1 "7"] ["Login", "Name", "Group"] [["7", "Bob", "G"]]
        = .ok ([StoredRec.mk 1 "7"], 1, 0)
  ∧ ¬(process_account_list_model 1 [StoredRec.mk 1 "7"] ["Login", "Name", "Group"] [["7", "Bob", "G"]]
        = .ok ([StoredRec.mk 1 "7"], 0, 1)) := by
  decide

/-- C1 (amended): the `run.py` ingesters dedup with an owner-scoped query
    (an existing record blocks a key only for its own owner, so two owners
    can each ingest the same identity key), while the `stage2_processing.py`
    ingesters query the key globally: the current owner is not part of the
    lookup, and a key persisted by any owner makes every other owner's row
    skip. -/
theorem dedup_scoping (store : List StoredRec) (uid uid' : Nat) (k : String) (row : PaymentRow) :
    stage2_dedup_hit store uid k = stage2_dedup_hit store uid' k
  ∧ (stage2_dedup_hit store uid k = true ↔ ∃ r, r ∈ store ∧ r.key = k)
  ∧ (runpy_dedup_hit store uid k = true ↔ ∃ r, r ∈ store ∧ r.key = k ∧ r.user_id = uid)
  ∧ (paymentKeyOf row = some k → stage2_dedup_hit store uid k = true →
      process_payment_rows uid store [row] = (store, 0, 1))
  ∧ (paymentKeyOf row = some k → runpy_dedup_hit store uid k = false →
      runpy_process_payment_rows uid store [row] = (StoredRec.mk uid k :: store, 1, 0)) := by
  refine ⟨rfl, ?_, ?_, ?_, ?_⟩
  · simp [stage2_dedup_hit, List.any_eq_true]
  · simp [runpy_dedup_hit, List.any_eq_true]
  · intro hk hhit
    simp [process_payment_rows, ingestRows, ingestStep, hk, hhit]
  · intro hk hmiss
    simp [runpy_process_payment_rows, ingestRows, ingestStep, hk, hmiss]

/-- C1 witness: owner 1 already holds key "K"; under the stage2 global
    lookup owner 2's row for "K" is skipped, while under the run.py
    owner-scoped lookup owner 2's row is added. -/
theorem dedup_scoping_witness :
    paymentKeyOf (PaymentRow.mk "K" "done" "GW" "DEPOSIT") = some "K"
  ∧ process_payment_rows 2 [StoredRec.mk 1 "K"]
      [PaymentRow.mk "K" "done" "GW" "DEPOSIT"] = ([StoredRec.mk 1 "K"], 0, 1)
  ∧ runpy_process_payment_rows 2 [StoredRec.mk 1 "K"]
      [PaymentRow.mk "K" "done" "GW" "DEPOSIT"]
      = (StoredRec.mk 2 "K" :: [StoredRec.mk 1 "K"], 1, 0) :=
  ⟨by decide,
   (dedup_scoping [StoredRec.mk 1 "K"] 2 2 "K"
      (PaymentRow.mk "K" "done" "GW" "DEPOSIT")).2.2.2.1 (by decide) (by decide),
   (dedup_scoping [StoredRec.mk 1 "K"] 2 2 "K"
      (PaymentRow.mk "K" "done" "GW" "DEPOSIT")).2.2.2.2 (by decide) (by decide)⟩

/-- C1 counterexample: in `process_payment_data` (stage2_processing.py) the
    dedup query ignores the current owner: owner 2 cannot ingest key "K"
    because owner 1 already holds it, even though owner 2 has no record at
    all — refuting "the dedup check is scoped to the current owner" for the
    stage2 ingesters. -/
theorem stage2_dedup_not_owner_scoped :
    process_payment_rows 2 [StoredRec.mk 1 "K"]
        [PaymentRow.mk "K" "DONE" "GW" "DEPOSIT"] = ([StoredRec.mk 1 "K"], 0, 1)
  ∧ (∀ r ∈ [StoredRec.mk 1 "K"], r.user_id ≠ 2) := by
  decide

/-- C9 (amended): when any mandatory column is unresolved, every ingester
    fails before processing any row or persisting anything (`.error`
    regardless of the rows, store untouched). The CRM withdrawal, CRM deposit
    and Account ingesters report every missing mandatory field (and nothing
    else); the IB-rebate ingester raises on the first missing column only, so
    it reports only "Transaction ID column not found" even when Rebate Time
    is missing too. -/
theorem upfront_missing_columns (uid : Nat) (store : List StoredRec) (headers : List String) :
    (crmw_req_time_idx headers = none ∨ crmw_trading_account_idx headers = none
        ∨ crmw_amount_idx headers = none ∨ crmw_request_id_idx headers = none →
      ∃ missing, (∀ rows, process_crm_withdrawals_model uid store headers rows = .error missing)
        ∧ ("Review Time" ∈ missing ↔ crmw_req_time_idx headers = none)
        ∧ ("Trading Account" ∈ missing ↔ crmw_trading_account_idx headers = none)
        ∧ ("Withdrawal Amount" ∈ missing ↔ crmw_amount_idx headers = none)
        ∧ ("Request ID" ∈ missing ↔ crmw_request_id_idx headers = none)
        ∧ ∀ x ∈ missing,
            x ∈ ["Review Time", "Trading Account", "Withdrawal Amount", "Request ID"])
  ∧ (crmd_req_idx headers = none ∨ crmd_acc_idx headers = none
        ∨ crmd_amt_idx headers = none ∨ crmd_id_idx headers = none →
      ∃ missing, (∀ rows, process_crm_deposit_model uid store headers rows = .error missing)
        ∧ ("Request Time" ∈ missing ↔ crmd_req_idx headers = none)
        ∧ ("Trading Account" ∈ missing ↔ crmd_acc_idx headers = none)
        ∧ ("Trading Amount" ∈ missing ↔ crmd_amt_idx headers = none)
        ∧ ("Request ID" ∈ missing ↔ crmd_id_idx headers = none)
        ∧ ∀ x ∈ missing, x ∈ ["Request Time", "Trading Account", "Trading Amount", "Request ID"])
  ∧ (acc_login_idx headers = none ∨ acc_name_idx headers = none ∨ acc_group_idx headers = none →
      ∃ missing, (∀ rows, process_account_list_model uid store headers rows = .error missing)
        ∧ ("Login" ∈ missing ↔ acc_login_idx headers = none)
        ∧ ("Name" ∈ missing ↔ acc_name_idx headers = none)
        ∧ ("Group" ∈ missing ↔ acc_group_idx headers = none)
        ∧ ∀ x ∈ missing, x ∈ ["Login", "Name", "Group"])
  ∧ (ibr_tx_id_idx headers = none →
      ∀ rows, process_ib_rebate_model uid store headers rows
        = .error "Transaction ID column not found")
  ∧ (ibr_tx_id_idx headers ≠ none → ibr_rebate_time_idx headers = none →
      ∀ rows, process_ib_rebate_model uid store headers rows
        = .error "Rebate Time column not found") := by
  refine ⟨?_, ?_, ?_, ?_, ?_⟩
  · intro hmiss
    refine ⟨(if crmw_req_time_idx headers = none then ["Review Time"] else [])
        ++ (if crmw_trading_account_idx headers = none then ["Trading Account"] else [])
        ++ (if crmw_amount_idx headers = none then ["Withdrawal Amount"] else [])
        ++ (if crmw_request_id_idx headers = none then ["Request ID"] else []),
      ?_, ?_, ?_, ?_, ?_, ?_⟩ <;>
      cases h1 : crmw_req_time_idx headers <;> cases h2 : crmw_trading_account_idx headers <;>
        cases h3 : crmw_amount_idx headers <;> cases h4 : crmw_request_id_idx headers <;>
        simp_all [process_crm_withdrawals_model]
  · intro hmiss
    refine ⟨(if crmd_req_idx headers = none then ["Request Time"] else [])
        ++ (if crmd_acc_idx headers = none then ["Trading Account"] else [])
        ++ (if crmd_amt_idx headers = none then ["Trading Amount"] else [])
        ++ (if crmd_id_idx headers = none then ["Request ID"] else []),
      ?_, ?_, ?_, ?_, ?_, ?_⟩ <;>
      cases h1 : crmd_req_idx headers <;> cases h2 : crmd_acc_idx headers <;>
        cases h3 : crmd_amt_idx headers <;> cases h4 : crmd_id_idx headers <;>
        simp_all [process_crm_deposit_model]
  · intro hmiss
    refine ⟨(if acc_login_idx headers = none then ["Login"] else [])
        ++ (if acc_name_idx headers = none then ["Name"] else [])
        ++ (if acc_group_idx headers = none then ["Group"] else []),
      ?_, ?_, ?_, ?_, ?_⟩ <;>
      cases h1 : acc_login_idx headers <;> cases h2 : acc_name_idx headers <;>
        cases h3 : acc_group_idx headers <;>
        simp_all [process_account_list_model]
  · intro hmiss rows
    simp [process_ib_rebate_model, hmiss]
  · intro htx hrt rows
    rcases Option.ne_none_iff_exists'.mp htx with ⟨ti, hti⟩
    simp [process_ib_rebate_model, hti, hrt]

/-- C9 witness: a file whose only header is "Rebate Time" resolves no
    Transaction ID column, and the IB-rebate ingester fails with the
    first-column message no matter what the rows contain. -/
theorem upfront_missing_columns_witness :
    ibr_tx_id_idx ["Rebate Time"] = none
  ∧ process_ib_rebate_model 3 [] ["Rebate Time"] [["x"]]
      = .error "Transaction ID column not found" :=
  ⟨by decide,
   (upfront_missing_columns 3 [] ["Rebate Time"]).2.2.2.1 (by decide) [["x"]]⟩

/-- C9 counterexample: with headers ["Foo"] both mandatory IB-rebate columns
    are unresolvable, yet the error names only "Transaction ID": the message
    does not mention "Rebate Time", refuting "an error naming every missing
    mandatory field" for the IB-rebate ingester. -/
theorem ib_rebate_error_names_only_first_missing :
    ibr_tx_id_idx ["Foo"] = none
  ∧ ibr_rebate_time_idx ["Foo"] = none
  ∧ process_ib_rebate_model 1 [] ["Foo"] [] = .error "Transaction ID column not found"
  ∧ strContains "Rebate Time" "Transaction ID column not found" = false := by
  decide

/-- The per-header exact-match predicate of `find_column_index`. -/
def exactMatches (em h : String) : Bool := decide (pyUpper (pyStrip h) = pyUpper em)

/-- The per-header partial-match predicate of `find_column_index`: some
    search term is contained case-insensitively in the header. -/
def partialMatches (terms : List String) (h : String) : Bool :=
  terms.any (fun t => strContains (pyUpper t) (pyUpper (pyStrip h)))

theorem findExactIdx_eq_some {em : String} :
    ∀ (hs : List String) (start i : Nat), i < hs.length →
      exactMatches em (hs.getD i "") = true →
      (∀ j, j < i → exactMatches em (hs.getD j "") = false) →
      findExactIdx em start hs = some (start + i) := by
  intro hs
  induction hs with
  | nil => intro start i hi _ _; exact absurd hi (by simp)
  | cons h rest ih =>
    intro start i hi hpred hbefore
    cases i with
    | zero =>
      have hcond : pyUpper (pyStrip h) = pyUpper em := by
        simpa [exactMatches] using hpred
      simp [findExactIdx, hcond]
    | succ j =>
      have hh : ¬(pyUpper (pyStrip h) = pyUpper em) := by
        have := hbefore 0 (Nat.succ_pos j)
        simpa [exactMatches] using this
      simp only [findExactIdx]
      rw [if_neg hh]
      have hrec := ih (start + 1) j (by simpa using hi)
        (by simpa using hpred)
        (fun m hm => by simpa using hbefore (m + 1) (Nat.succ_lt_succ hm))
      rw [hrec]
      congr 1
      omega

theorem findExactIdx_eq_none {em : String} :
    ∀ (hs : List String) (start : Nat),
      (∀ j, j < hs.length → exactMatches em (hs.getD j "") = false) →
      findExactIdx em start hs = none := by
  intro hs
  induction hs with
  | nil => intro start _; rfl
  | cons h rest ih =>
    intro start hall
    have hh : ¬(pyUpper (pyStrip h) = pyUpper em) := by
      have := hall 0 (by simp)
      simpa [exactMatches] using this
    simp only [findExactIdx]
    rw [if_neg hh]
    exact ih (start + 1) (fun j hj => by simpa using hall (j + 1) (by simpa using hj))

theorem findPartialIdx_eq_some {terms : List String} :
    ∀ (hs : List String) (start i : Nat), i < hs.length →
      partialMatches terms (hs.getD i "") = true →
      (∀ j, j < i → partialMatches terms (hs.getD j "") = false) →
      findPartialIdx terms start hs = some (start + i) := by
  intro hs
  induction hs with
  | nil => intro start i hi _ _; exact absurd hi (by simp)
  | cons h rest ih =>
    intro start i hi hpred hbefore
    cases i with
    | zero =>
      have hcond : terms.any (fun t => strContains (pyUpper t) (pyUpper (pyStrip h))) = true := by
        simpa [partialMatches] using hpred
      simp [findPartialIdx, hcond]
    | succ j =>
      have hh : terms.any (fun t => strContains (pyUpper t) (pyUpper (pyStrip h))) = false := by
        have := hbefore 0 (Nat.succ_pos j)
        simpa [partialMatches] using this
      simp only [findPartialIdx]
      rw [hh]
      simp only [Bool.false_eq_true, if_false]
      have hrec := ih (start + 1) j (by simpa using hi)
        (by simpa using hpred)
        (fun m hm => by simpa using hbefore (m + 1) (Nat.succ_lt_succ hm))
      rw [hrec]
      congr 1
      omega

theorem findPartialIdx_eq_none {terms : List String} :
    ∀ (hs : List String) (start : Nat),
      (∀ j, j < hs.length → partialMatches terms (hs.getD j "") = false) →
      findPartialIdx terms start hs = none := by
  intro hs
  induction hs with
  | nil => intro start _; rfl
  | cons h rest ih =>
    intro start hall
    have hh : terms.any (fun t => strContains (pyUpper t) (pyUpper (pyStrip h))) = false := by
      have := hall 0 (by simp)
      simpa [partialMatches] using this
    simp only [findPartialIdx]
    rw [hh]
    simp only [Bool.false_eq_true, if_false]
    exact ih (start + 1) (fun j hj => by simpa using hall (j + 1) (by simpa using hj))

/-- C8: column resolution returns the first exactly-matching header when a
    non-empty exact literal is given and some header matches it exactly; only
    when no header matches exactly does it return the first header containing
    any search term case-insensitively; it returns no index when nothing
    matches; and on the spec's example the exact match at index 1 wins over
    the partial match at index 0. -/
theorem find_column_index_rule (headers terms : List String) (em : String) (i : Nat) :
    (em ≠ "" → i < headers.length → exactMatches em (headers.getD i "") = true →
      (∀ j, j < i → exactMatches em (headers.getD j "") = false) →
      find_column_index headers terms (some em) = some i)
  ∧ ((∀ j, j < headers.length → exactMatches em (headers.getD j "") = false) →
      i < headers.length → partialMatches terms (headers.getD i "") = true →
      (∀ j, j < i → partialMatches terms (headers.getD j "") = false) →
      find_column_index headers terms (some em) = some i)
  ∧ ((∀ j, j < headers.length → exactMatches em (headers.getD j "") = false) →
      (∀ j, j < headers.length → partialMatches terms (headers.getD j "") = false) →
      find_column_index headers terms (some em) = none)
  ∧ find_column_index ["Trans ID", "Transaction ID", "Status"] ["Transaction ID"]
      (some "Transaction ID") = some 1 := by
  refine ⟨?_, ?_, ?_, by decide⟩
  · intro hne hi hpred hbefore
    simp only [find_column_index]
    rw [if_neg hne]
    rw [findExactIdx_eq_some headers 0 i hi hpred hbefore]
    simp
  · intro hnoexact hi hpred hbefore
    simp only [find_column_index]
    by_cases hem : em = ""
    · rw [if_pos hem]
      simpa using findPartialIdx_eq_some headers 0 i hi hpred hbefore
    · rw [if_neg hem]
      rw [findExactIdx_eq_none headers 0 hnoexact]
      simpa using findPartialIdx_eq_some headers 0 i hi hpred hbefore
  · intro hnoexact hnopartial
    simp only [find_column_index]
    by_cases hem : em = ""
    · rw [if_pos hem]
      exact findPartialIdx_eq_none headers 0 hnopartial
    · rw [if_neg hem]
      rw [findExactIdx_eq_none headers 0 hnoexact]
      exact findPartialIdx_eq_none headers 0 hnopartial

/-- C8 witness: the spec's example through the exact-match branch, and a
    no-match header set through the not-found branch. -/
theorem find_column_index_rule_witness :
    find_column_index ["Trans ID", "Transaction ID", "Status"] ["Transaction ID"]
        (some "Transaction ID") = some 1
  ∧ find_column_index ["Foo"] ["Baz"] (some "Bar") = none :=
  ⟨(find_column_index_rule ["Trans ID", "Transaction ID", "Status"] ["Transaction ID"]
      "Transaction ID" 1).1 (by decide) (by decide) (by decide)
      (fun j hj => by
        have hj0 : j = 0 := by omega
        subst hj0; decide),
   (find_column_index_rule ["Foo"] ["Baz"] "Bar" 0).2.2.1
      (fun j hj => by
        have hj1 : j < 1 := by simpa using hj
        have hj0 : j = 0 := by omega
        subst hj0; decide)
      (fun j hj => by
        have hj1 : j < 1 := by simpa using hj
        have hj0 : j = 0 := by omega
        subst hj0; decide)⟩

/-- C6: in the CRM withdrawal and CRM deposit ingesters of
    `stage2_processing.py`, an amount cell containing the marker "USC"
    (case-insensitively — the cell is upper-cased before the test) is stored
    as the numerically coerced value divided by 100, and a cell without the
    marker is stored as the coerced value unchanged. -/
theorem crm_amount_usc_rule (raw_cell : String) :
    (strContains "USC" (pyUpper raw_cell) = true →
      crm_amount raw_cell = safe_float raw_cell 0 / 100)
  ∧ (strContains "USC" (pyUpper raw_cell) = false →
      crm_amount raw_cell = safe_float raw_cell 0) := by
  constructor
  · intro h
    simp only [crm_amount, h, if_true]
    rw [safe_float_pyUpper]
  · intro h
    simp only [crm_amount, h]
    rw [if_neg (by simp), safe_float_pyUpper]

/-- C6 witness: a subunit cell with a lower-case marker and a plain cell. -/
theorem crm_amount_usc_rule_witness :
    strContains "USC" (pyUpper "125 usc") = true
  ∧ crm_amount "125 usc" = safe_float "125 usc" 0 / 100
  ∧ strContains "USC" (pyUpper "125") = false
  ∧ crm_amount "125" = safe_float "125" 0 :=
  ⟨by decide, (crm_amount_usc_rule "125 usc").1 (by decide),
   by decide, (crm_amount_usc_rule "125").2 (by decide)⟩

/-- A persisted CRM deposit record as read by the reconciliation query of
    `compare_crm_and_client_deposits` (timestamps are epoch seconds, `none`
    models a NULL `request_time`; nullable text columns are modelled by their
    `or ''` coercions). -/
structure CRMDepositRec where
  id : Nat
  request_time : Option Int
  client_id : String
  name : String
  trading_amount : Rat
  payment_method : String
deriving DecidableEq, Repr

/-- A persisted payment record with sheet category "M2p Deposit" as read by
    the reconciliation query. -/
structure ClientDepositRec where
  id : Nat
  created : Option Int
  trading_account : String
  final_amount : Rat
deriving DecidableEq, Repr

/-- One entry of `crm_normalized`. -/
structure NormCrm where
  date : Option Int
  client_id : String
  name : String
  amount : Rat
  payment_method : String
  id : Nat
deriving DecidableEq, Repr

/-- One entry of `client_normalized`. -/
structure NormClient where
  date : Option Int
  account : String
  amount : Rat
  id : Nat
deriving DecidableEq, Repr

/-- The `crm_normalized` projection: client id and payment method are
    stripped and lower-cased. -/
def crmNorm (d : CRMDepositRec) : NormCrm :=
  ⟨d.request_time, pyLower (pyStrip d.client_id), d.name, d.trading_amount,
   pyLower (pyStrip d.payment_method), d.id⟩

/-- The `client_normalized` projection: the trading account is stripped and
    lower-cased. -/
def clientNorm (d : ClientDepositRec) : NormClient :=
  ⟨d.created, pyLower (pyStrip d.trading_account), d.final_amount, d.id⟩

/-- The inner match test of the reconciliation loop: both timestamps
    present, absolute time difference at most 3.5 h = 12600 s, CRM client id
    a substring of the payment trading account, absolute amount difference
    at most 1. -/
def depositMatch (c : NormCrm) (p : NormClient) : Bool :=
  match c.date, p.date with
  | some t1, some t2 =>
    decide (|t1 - t2| ≤ 12600) && strContains c.client_id p.account
      && decide (|c.amount - p.amount| ≤ 1)
  | _, _ => false

/-- The inner `for client_row in client_normalized` loop: skip already
    matched ids, return the id of the first remaining row passing the match
    test (`break`), or nothing. -/
def findUnmatchedMatch (c : NormCrm) (matched : List Nat) : List NormClient → Option Nat
  | [] => none
  | p :: ps =>
    if p.id ∈ matched then findUnmatchedMatch c matched ps
    else if depositMatch c p then some p.id
    else findUnmatchedMatch c matched ps

/-- A row of the discrepancy output (the source records carry every value
    the emitted row is formatted from). -/
inductive DiscrepancySource
  | crm (c : NormCrm)
  | client (p : NormClient)
deriving DecidableEq, Repr

/-- The outer CRM loop of `compare_crm_and_client_deposits`: each CRM row
    greedily claims the first eligible unmatched payment row; an unmatched
    CRM row is emitted unless its (normalized) payment method is
    "topchange". Returns the emitted CRM rows in order plus the matched ids. -/
def compareLoop (clients : List NormClient) : List NormCrm → List Nat →
    List DiscrepancySource × List Nat
  | [], matched => ([], matched)
  | c :: cs, matched =>
    match findUnmatchedMatch c matched clients with
    | some pid => compareLoop clients cs (pid :: matched)
    | none =>
      let rest := compareLoop clients cs matched
      if c.payment_method ≠ "topchange" then (DiscrepancySource.crm c :: rest.1, rest.2)
      else rest

/-- Function `compare_crm_and_client_deposits` from `stage2_reports_enhanced.py`:
    normalize both record sets, run the greedy matching pass, then emit the
    surviving CRM rows followed by every unclaimed payment row (both in
    original query order). -/
def compare_crm_and_client_deposits (crm_deposits : List CRMDepositRec)
    (client_deposits : List ClientDepositRec) : List DiscrepancySource :=
  let crm_normalized := crm_deposits.map crmNorm
  let client_normalized := client_deposits.map clientNorm
  let res := compareLoop client_normalized crm_normalized []
  res.1 ++ (client_normalized.filter (fun p => decide (p.id ∉ res.2))).map DiscrepancySource.client

/-- The matching rule exactly as the claim words it: both rows carry a
    timestamp, the absolute time difference is at most 3.5 hours
    (3.5 × 3600 = 12600 seconds), the CRM row's trimmed lower-cased client
    id is a substring of the payment row's trimmed lower-cased
    trading-account text, and the absolute amount difference is at most 1.0. -/
def specDepositMatch (c : NormCrm) (p : NormClient) : Prop :=
  c.date.isSome = true ∧ p.date.isSome = true
  ∧ |c.date.getD 0 - p.date.getD 0| ≤ 12600
  ∧ strContains c.client_id p.account = true
  ∧ |c.amount - p.amount| ≤ 1

instance (c : NormCrm) (p : NormClient) : Decidable (specDepositMatch c p) := by
  unfold specDepositMatch
  infer_instance

/-- The claim's greedy pass: each CRM row in order claims the first eligible
    not-yet-matched payment row; a CRM row that matches nothing is emitted
    unless its payment method is "topchange". -/
def specCompareLoop (clients : List NormClient) : List NormCrm → List Nat →
    List DiscrepancySource × List Nat
  | [], matched => ([], matched)
  | c :: cs, matched =>
    match clients.find? (fun p => decide (p.id ∉ matched) && decide (specDepositMatch c p)) with
    | some p => specCompareLoop clients cs (p.id :: matched)
    | none =>
      let rest := specCompareLoop clients cs matched
      if c.payment_method = "topchange" then rest
      else (DiscrepancySource.crm c :: rest.1, rest.2)

/-- The discrepancy output as the claim describes it. -/
def spec_deposit_discrepancies (crm_deposits : List CRMDepositRec)
    (client_deposits : List ClientDepositRec) : List DiscrepancySource :=
  let crm_normalized := crm_deposits.map crmNorm
  let client_normalized := client_deposits.map clientNorm
  let res := specCompareLoop client_normalized crm_normalized []
  res.1 ++ (client_normalized.filter (fun p => decide (p.id ∉ res.2))).map DiscrepancySource.client

theorem depositMatch_iff {c : NormCrm} {p : NormClient} :
    depositMatch c p = true ↔ specDepositMatch c p := by
  unfold depositMatch specDepositMatch
  cases hc : c.date <;> cases hp : p.date <;>
    simp [hc, hp, Bool.and_eq_true, decide_eq_true_eq, and_assoc]

theorem findUnmatchedMatch_eq (c : NormCrm) (matched : List Nat) :
    ∀ clients : List NormClient,
      findUnmatchedMatch c matched clients
        = (clients.find? (fun p => decide (p.id ∉ matched)
            && decide (specDepositMatch c p))).map (fun p => p.id) := by
  intro clients
  induction clients with
  | nil => rfl
  | cons p ps ih =>
    by_cases hm : p.id ∈ matched
    · simp [findUnmatchedMatch, List.find?_cons, hm, ih]
    · by_cases hd : depositMatch c p = true
      · have hs : specDepositMatch c p := depositMatch_iff.mp hd
        simp [findUnmatchedMatch, List.find?_cons, hm, hd, hs]
      · have hs : ¬specDepositMatch c p := fun h => hd (depositMatch_iff.mpr h)
        simp [findUnmatchedMatch, List.find?_cons, hm, hd, hs, ih]

theorem compareLoop_eq (clients : List NormClient) :
    ∀ (cs : List NormCrm) (matched : List Nat),
      compareLoop clients cs matched = specCompareLoop clients cs matched := by
  intro cs
  induction cs with
  | nil => intro matched; rfl
  | cons c rest ih =>
    intro matched
    simp only [compareLoop, specCompareLoop]
    rw [findUnmatchedMatch_eq]
    cases hf : clients.find? (fun p => decide (p.id ∉ matched)
        && decide (specDepositMatch c p)) with
    | some p => simp [ih]
    | none =>
      by_cases ht : c.payment_method = "topchange" <;> simp [ht, ih]

/-- C3: the reconciliation pass of `compare_crm_and_client_deposits` equals
    the claim's description: a CRM deposit matches a payment row exactly when
    both have a timestamp, the time difference is within 3.5 hours, the
    normalized client id is a substring of the normalized trading account and
    the amount difference is within 1.0; each CRM row greedily claims the
    first eligible unmatched payment row in iteration order; unmatched
    "topchange" CRM rows are dropped from the output while every other
    unmatched CRM row and every unmatched payment row is emitted. -/
theorem compare_crm_and_client_deposits_follows_spec
    (crm_deposits : List CRMDepositRec) (client_deposits : List ClientDepositRec) :
    compare_crm_and_client_deposits crm_deposits client_deposits
      = spec_deposit_discrepancies crm_deposits client_deposits := by
  simp only [compare_crm_and_client_deposits, spec_deposit_discrepancies, compareLoop_eq]

/-- A parsed `datetime.datetime` value (date-only formats default the time
    fields to zero, as `strptime` does). -/
structure PyDateTime where
  year : Nat
  month : Nat
  day : Nat
  hour : Nat
  minute : Nat
  second : Nat
deriving DecidableEq, Repr

/-- Gregorian leap-year rule used by `datetime`. -/
def isLeapYear (y : Nat) : Bool :=
  (decide (y % 4 = 0) && decide (y % 100 ≠ 0)) || decide (y % 400 = 0)

/-- Days in a month as validated by the `datetime` constructor. -/
def daysInMonth (y m : Nat) : Nat :=
  if m = 2 then (if isLeapYear y then 29 else 28)
  else if m = 4 ∨ m = 6 ∨ m = 9 ∨ m = 11 then 30
  else 31

/-- The `datetime(...)` constructor: validates the ranges that the strptime
    directive patterns do not already guarantee (year ≥ 1, day against the
    month length, seconds ≤ 59 although the `%S` pattern admits 60 and 61);
    a `ValueError` is modelled as `none` and is caught by the caller exactly
    like a pattern mismatch. -/
def mkDateTime? (y m d h mi s : Nat) : Option PyDateTime :=
  if 1 ≤ y ∧ y ≤ 9999 ∧ 1 ≤ d ∧ d ≤ daysInMonth y m ∧ h ≤ 23 ∧ mi ≤ 59 ∧ s ≤ 59 then
    some (PyDateTime.mk y m d h mi s)
  else none

/-- Leading digit run of a character stream. -/
def takeDigits : List Char → List Char × List Char
  | [] => ([], [])
  | c :: rest =>
    if c.isDigit then
      let (ds, r) := takeDigits rest
      (c :: ds, r)
    else ([], c :: rest)

/-- One numeric strptime directive. In the eight formats used by the
    pipeline every directive is followed by a non-digit literal or the end
    of the input, so the regex compiled by `_strptime` always consumes the
    entire digit run: the field parses exactly when that run is non-empty,
    no wider than the directive and within the directive's value range. -/
def parseNumField (maxW lo hi : Nat) (cs : List Char) : Option (Nat × List Char) :=
  let (ds, rest) := takeDigits cs
  let v := digitsToNat ds
  if ds ≠ [] ∧ ds.length ≤ maxW ∧ lo ≤ v ∧ v ≤ hi then some (v, rest) else none

/-- The `%Y` directive: CPython's `_strptime` compiles it to exactly four
    digits (`\d\d\d\d`), so the digit run must have length 4 (its value is
    then at most 9999; the constructor still requires year ≥ 1). -/
def parseYear (cs : List Char) : Option (Nat × List Char) :=
  let (ds, rest) := takeDigits cs
  if ds.length = 4 then some (digitsToNat ds, rest) else none

/-- A literal separator character of a strptime format. -/
def expectChar (c : Char) : List Char → Option (List Char)
  | d :: rest => if d = c then some rest else none
  | [] => none

/-- A whitespace literal in a strptime format matches one or more
    whitespace characters. -/
def expectSpaces : List Char → Option (List Char)
  | c :: rest => if c.isWhitespace then some (rest.dropWhile Char.isWhitespace) else none
  | [] => none

/-- The date part `%d sep %m sep %Y`. -/
def parseDateDMY (sep : Char) (cs : List Char) : Option (Nat × Nat × Nat × List Char) :=
  match parseNumField 2 1 31 cs with
  | none => none
  | some (d, cs1) =>
    match expectChar sep cs1 with
    | none => none
    | some cs2 =>
      match parseNumField 2 1 12 cs2 with
      | none => none
      | some (m, cs3) =>
        match expectChar sep cs3 with
        | none => none
        | some cs4 =>
          match parseYear cs4 with
          | none => none
          | some (y, cs5) => some (d, m, y, cs5)

/-- The date part `%m sep %d sep %Y`. -/
def parseDateMDY (sep : Char) (cs : List Char) : Option (Nat × Nat × Nat × List Char) :=
  match parseNumField 2 1 12 cs with
  | none => none
  | some (m, cs1) =>
    match expectChar sep cs1 with
    | none => none
    | some cs2 =>
      match parseNumField 2 1 31 cs2 with
      | none => none
      | some (d, cs3) =>
        match expectChar sep cs3 with
        | none => none
        | some cs4 =>
          match parseYear cs4 with
          | none => none
          | some (y, cs5) => some (m, d, y, cs5)

/-- The date part `%Y-%m-%d`. -/
def parseDateYMD (cs : List Char) : Option (Nat × Nat × Nat × List Char) :=
  match parseYear cs with
  | none => none
  | some (y, cs1) =>
    match expectChar '-' cs1 with
    | none => none
    | some cs2 =>
      match parseNumField 2 1 12 cs2 with
      | none => none
      | some (m, cs3) =>
        match expectChar '-' cs3 with
        | none => none
        | some cs4 =>
          match parseNumField 2 1 31 cs4 with
          | none => none
          | some (d, cs5) => some (y, m, d, cs5)

/-- The time part ` %H:%M:%S` (`%S` admits 60 and 61 at the pattern level;
    the constructor rejects them). -/
def parseTimeHMS (cs : List Char) : Option (Nat × Nat × Nat × List Char) :=
  match expectSpaces cs with
  | none => none
  | some cs1 =>
    match parseNumField 2 0 23 cs1 with
    | none => none
    | some (h, cs2) =>
      match expectChar ':' cs2 with
      | none => none
      | some cs3 =>
        match parseNumField 2 0 59 cs3 with
        | none => none
        | some (mi, cs4) =>
          match expectChar ':' cs4 with
          | none => none
          | some cs5 =>
            match parseNumField 2 0 61 cs5 with
            | none => none
            | some (s, cs6) => some (h, mi, s, cs6)

/-- Format `datetime.strptime(s, '%Y-%m-%d %H:%M:%S')` (full match required). -/
def fmt_Ymd_HMS (cs : List Char) : Option PyDateTime :=
  match parseDateYMD cs with
  | some (y, m, d, rest) =>
    match parseTimeHMS rest with
    | some (h, mi, s, []) => mkDateTime? y m d h mi s
    | _ => none
  | none => none

/-- Format `datetime.strptime(s, '%Y-%m-%d')`. -/
def fmt_Ymd (cs : List Char) : Option PyDateTime :=
  match parseDateYMD cs with
  | some (y, m, d, []) => mkDateTime? y m d 0 0 0
  | _ => none

/-- Format `datetime.strptime(s, '%d.%m.%Y %H:%M:%S')`. -/
def fmt_dmY_dot_HMS (cs : List Char) : Option PyDateTime :=
  match parseDateDMY '.' cs with
  | some (d, m, y, rest) =>
    match parseTimeHMS rest with
    | some (h, mi, s, []) => mkDateTime? y m d h mi s
    | _ => none
  | none => none

/-- Format `datetime.strptime(s, '%d.%m.%Y')`. -/
def fmt_dmY_dot (cs : List Char) : Option PyDateTime :=
  match parseDateDMY '.' cs with
  | some (d, m, y, []) => mkDateTime? y m d 0 0 0
  | _ => none

/-- Format `datetime.strptime(s, '%d/%m/%Y %H:%M:%S')`. -/
def fmt_dmY_slash_HMS (cs : List Char) : Option PyDateTime :=
  match parseDateDMY '/' cs with
  | some (d, m, y, rest) =>
    match parseTimeHMS rest with
    | some (h, mi, s, []) => mkDateTime? y m d h mi s
    | _ => none
  | none => none

/-- Format `datetime.strptime(s, '%d/%m/%Y')`. -/
def fmt_dmY_slash (cs : List Char) : Option PyDateTime :=
  match parseDateDMY '/' cs with
  | some (d, m, y, []) => mkDateTime? y m d 0 0 0
  | _ => none

/-- Format `datetime.strptime(s, '%m/%d/%Y %H:%M:%S')`. -/
def fmt_mdY_slash_HMS (cs : List Char) : Option PyDateTime :=
  match parseDateMDY '/' cs with
  | some (m, d, y, rest) =>
    match parseTimeHMS rest with
    | some (h, mi, s, []) => mkDateTime? y m d h mi s
    | _ => none
  | none => none

/-- Format `datetime.strptime(s, '%m/%d/%Y')`. -/
def fmt_mdY_slash (cs : List Char) : Option PyDateTime :=
  match parseDateMDY '/' cs with
  | some (m, d, y, []) => mkDateTime? y m d 0 0 0
  | _ => none

/-- The `for fmt in formats` loop of `parse_date_flexible`: try the eight
    formats in their list order on the (already stripped) input, returning
    the first success and `none` when every format fails. -/
def tryFormatsInOrder (cs : List Char) : Option PyDateTime :=
  match fmt_Ymd_HMS cs with
  | some dt => some dt
  | none =>
  match fmt_Ymd cs with
  | some dt => some dt
  | none =>
  match fmt_dmY_dot_HMS cs with
  | some dt => some dt
  | none =>
  match fmt_dmY_dot cs with
  | some dt => some dt
  | none =>
  match fmt_dmY_slash_HMS cs with
  | some dt => some dt
  | none =>
  match fmt_dmY_slash cs with
  | some dt => some dt
  | none =>
  match fmt_mdY_slash_HMS cs with
  | some dt => some dt
  | none => fmt_mdY_slash cs

/-- Function `parse_date_flexible` from `stage2_processing.py` (and `parse_date` in
    `run.py`, which uses the same default format list): strip the input and
    try the formats in order. -/
def parse_date_flexible (date_str : String) : Option PyDateTime :=
  tryFormatsInOrder ((pyStrip date_str).toList)

theorem expectChar_some {ch : Char} {cs rest : List Char}
    (h : expectChar ch cs = some rest) : cs = ch :: rest := by
  cases cs with
  | nil => simp [expectChar] at h
  | cons d r =>
    by_cases hd : d = ch
    · subst hd
      simp [expectChar] at h
      rw [h]
    · simp [expectChar, hd] at h

theorem parseNumField_inv {maxW lo hi : Nat} {cs : List Char} {v : Nat} {rest : List Char}
    (h : parseNumField maxW lo hi cs = some (v, rest)) :
    (takeDigits cs).1 ≠ [] ∧ (takeDigits cs).1.length ≤ maxW ∧ lo ≤ v ∧ v ≤ hi
      ∧ digitsToNat (takeDigits cs).1 = v ∧ (takeDigits cs).2 = rest := by
  unfold parseNumField at h
  rcases htd : takeDigits cs with ⟨ds, r0⟩
  rw [htd] at h
  simp only at h
  split_ifs at h with hcond
  · rcases hcond with ⟨hne, hlen, hlo, hhi⟩
    have hv : digitsToNat ds = v := by
      have := congrArg (fun o => o.map Prod.fst) h
      simpa using this
    have hr : r0 = rest := by
      have := congrArg (fun o => o.map Prod.snd) h
      simpa using this
    subst hv
    subst hr
    exact ⟨hne, hlen, hlo, hhi, rfl, rfl⟩

theorem parseYear_none_of_short {cs : List Char}
    (h : (takeDigits cs).1.length ≠ 4) : parseYear cs = none := by
  unfold parseYear
  rcases htd : takeDigits cs with ⟨ds, r0⟩
  rw [htd] at h
  simp only at h ⊢
  rw [if_neg h]

theorem parseDateDMY_slash_shape {cs : List Char} {dd mm yy : Nat} {rest : List Char}
    (h : parseDateDMY '/' cs = some (dd, mm, yy, rest)) :
    ∃ d0 cs2, parseNumField 2 1 31 cs = some (d0, '/' :: cs2) := by
  unfold parseDateDMY at h
  cases h1 : parseNumField 2 1 31 cs with
  | none => rw [h1] at h; simp at h
  | some pr =>
    obtain ⟨d0, cs1⟩ := pr
    rw [h1] at h
    simp only at h
    cases h2 : expectChar '/' cs1 with
    | none => rw [h2] at h; simp at h
    | some cs2 =>
      refine ⟨d0, cs2, ?_⟩
      rw [expectChar_some h2]

theorem iso_formats_fail_on_slash_date {cs : List Char} {d0 : Nat} {cs2 : List Char}
    (h : parseNumField 2 1 31 cs = some (d0, '/' :: cs2)) :
    fmt_Ymd_HMS cs = none ∧ fmt_Ymd cs = none
      ∧ fmt_dmY_dot_HMS cs = none ∧ fmt_dmY_dot cs = none := by
  rcases parseNumField_inv h with ⟨hne, hlen, _, _, _, _⟩
  have hyear : parseYear cs = none := by
    apply parseYear_none_of_short
    intro hlen4
    rw [hlen4] at hlen
    omega
  have hymd : parseDateYMD cs = none := by
    simp [parseDateYMD, hyear]
  have hdot : parseDateDMY '.' cs = none := by
    simp [parseDateDMY, h, expectChar]
  refine ⟨?_, ?_, ?_, ?_⟩
  · simp [fmt_Ymd_HMS, hymd]
  · simp [fmt_Ymd, hymd]
  · simp [fmt_dmY_dot_HMS, hdot]
  · simp [fmt_dmY_dot, hdot]

theorem tryFormats_day_first (cs : List Char) (d d' : PyDateTime) :
    (fmt_dmY_slash cs = some d → fmt_mdY_slash cs = some d' →
      tryFormatsInOrder cs = some d)
  ∧ (fmt_dmY_slash_HMS cs = some d → fmt_mdY_slash_HMS cs = some d' →
      tryFormatsInOrder cs = some d) := by
  constructor
  · intro h6 _h8
    have hshape : ∃ dd mm yy, parseDateDMY '/' cs = some (dd, mm, yy, []) := by
      cases hp : parseDateDMY '/' cs with
      | none => simp [fmt_dmY_slash, hp] at h6
      | some tup =>
        obtain ⟨dd, mm, yy, rest⟩ := tup
        cases rest with
        | nil => exact ⟨dd, mm, yy, rfl⟩
        | cons a r => simp [fmt_dmY_slash, hp] at h6
    rcases hshape with ⟨dd, mm, yy, hp⟩
    rcases parseDateDMY_slash_shape hp with ⟨d0, cs2, hnum⟩
    rcases iso_formats_fail_on_slash_date hnum with ⟨hf1, hf2, hf3, hf4⟩
    have hf5 : fmt_dmY_slash_HMS cs = none := by
      simp [fmt_dmY_slash_HMS, hp, parseTimeHMS, expectSpaces]
    simp only [tryFormatsInOrder]
    rw [hf1, hf2, hf3, hf4, hf5, h6]
  · intro h5 _h7
    have hshape : ∃ dd mm yy rest, parseDateDMY '/' cs = some (dd, mm, yy, rest) := by
      cases hp : parseDateDMY '/' cs with
      | none => simp [fmt_dmY_slash_HMS, hp] at h5
      | some tup =>
        obtain ⟨dd, mm, yy, rest⟩ := tup
        exact ⟨dd, mm, yy, rest, rfl⟩
    rcases hshape with ⟨dd, mm, yy, rest, hp⟩
    rcases parseDateDMY_slash_shape hp with ⟨d0, cs2, hnum⟩
    rcases iso_formats_fail_on_slash_date hnum with ⟨hf1, hf2, hf3, hf4⟩
    simp only [tryFormatsInOrder]
    rw [hf1, hf2, hf3, hf4, h5]

/-- C10: the format list tries the day-first slash patterns before the
    month-first ones, so any date string that parses under both `%d/%m/%Y`
    and `%m/%d/%Y` (or both with time-of-day) is returned with the day-first
    reading, and never the month-first one. -/
theorem parse_date_flexible_day_first (s : String) (d d' : PyDateTime) :
    (fmt_dmY_slash ((pyStrip s).toList) = some d →
      fmt_mdY_slash ((pyStrip s).toList) = some d' →
      parse_date_flexible s = some d)
  ∧ (fmt_dmY_slash_HMS ((pyStrip s).toList) = some d →
      fmt_mdY_slash_HMS ((pyStrip s).toList) = some d' →
      parse_date_flexible s = some d) := by
  constructor
  · intro h6 h8
    exact (tryFormats_day_first ((pyStrip s).toList) d d').1 h6 h8
  · intro h5 h7
    exact (tryFormats_day_first ((pyStrip s).toList) d d').2 h5 h7

/-- C10 witness: "01/02/2024" parses under both slash conventions and is
    returned as 1 February 2024; the same holds with a time-of-day part. -/
theorem parse_date_flexible_day_first_witness :
    parse_date_flexible "01/02/2024" = some (PyDateTime.mk 2024 2 1 0 0 0)
  ∧ parse_date_flexible "01/02/2024 10:30:00" = some (PyDateTime.mk 2024 2 1 10 30 0) :=
  ⟨(parse_date_flexible_day_first "01/02/2024"
      (PyDateTime.mk 2024 2 1 0 0 0) (PyDateTime.mk 2024 1 2 0 0 0)).1
      (by decide) (by decide),
   (parse_date_flexible_day_first "01/02/2024 10:30:00"
      (PyDateTime.mk 2024 2 1 10 30 0) (PyDateTime.mk 2024 1 2 10 30 0)).2
      (by decide) (by decide)⟩
